import Mathlib

/-!
Shallow embedding of the `Automated_email_sender` repository (src/final.py)
and proofs of the properties its specification asserts.

The embedding models:
* `EmailValidator.is_valid_email` — the regex check
  `re.match(r'^[a-zA-Z0-9._%+-]+@[a-zA-Z0-9.-]+\.[a-zA-Z]{2,}$', email)`,
  including Python's semantics of `$` (which also matches just before a
  single trailing newline);
* `EmailAutomation.read_csv_content` — email-column detection and per-row
  validation over a `DictReader`-style table;
* `EmailAutomation.create_message` — MIME message construction;
* `EmailAutomation.send_emails` — the retry-driven dispatch loop, as an
  event trace (build/send attempts, status texts, progress values, sleeps);
* `main` — the entry point's try/except/finally control flow, including
  Python's local-variable binding semantics in the `finally` block.
-/

set_option autoImplicit false

/-! ### Email validator (src/final.py lines 25-29) -/

/-- Character class `[a-zA-Z0-9._%+-]` of the local part of the regex. -/
def isLocalChar (c : Char) : Bool :=
  c.isAlpha || c.isDigit || c == '.' || c == '_' || c == '%' || c == '+' || c == '-'

/-- Character class `[a-zA-Z0-9.-]` of the domain part of the regex. -/
def isDomainChar (c : Char) : Bool :=
  c.isAlpha || c.isDigit || c == '.' || c == '-'

/-- Matching of the sub-pattern `[a-zA-Z0-9.-]+\.[a-zA-Z]{2,}` against the
whole character list `r` (the part of the input after the `@`).  Since the
two-or-more letters of `[a-zA-Z]{2,}` must run to the end of the input, the
matched final label is exactly the maximal alphabetic suffix, which must be
preceded by a literal dot with a nonempty `[a-zA-Z0-9.-]+` part before it. -/
def domainMatch (r : List Char) : Bool :=
  let rev := r.reverse
  let t := rev.takeWhile Char.isAlpha
  let rest := rev.dropWhile Char.isAlpha
  decide (2 ≤ t.length) && rest.head? == some '.' &&
    !rest.tail.isEmpty && rest.tail.all isDomainChar

/-- Full-string matching of `[a-zA-Z0-9._%+-]+@[a-zA-Z0-9.-]+\.[a-zA-Z]{2,}`
against a character list.  Since `@` belongs to no character class of the
pattern, the `[a-zA-Z0-9._%+-]+` part must cover exactly the prefix before
the first `@` of the input. -/
def coreMatch (cs : List Char) : Bool :=
  let l := cs.takeWhile (fun c => c != '@')
  let rest := cs.dropWhile (fun c => c != '@')
  rest.head? == some '@' && !l.isEmpty && l.all isLocalChar &&
    domainMatch rest.tail

/-- Embedding of `EmailValidator.is_valid_email`: Python's
`bool(re.match(pattern, email))` where `pattern` is anchored by `^` and `$`.
Without `re.MULTILINE`, `$` matches at the end of the string or just before
a newline that is the last character, so a string consisting of a matching
string plus one trailing `'\n'` is also accepted. -/
def is_valid_email (s : String) : Bool :=
  coreMatch s.data ||
    (decide (s.data.getLast? = some '\n') && coreMatch s.data.dropLast)

/-! ### CSV reading (src/final.py lines 55-92) -/

/-- Character-list prefix test (needle, haystack). -/
def isPrefixL : List Char → List Char → Bool
  | [], _ => true
  | _ :: _, [] => false
  | a :: as, b :: bs => a == b && isPrefixL as bs

/-- Character-list substring test, modelling Python's `needle in hay`. -/
def hasSubstr (needle : List Char) : List Char → Bool
  | [] => needle.isEmpty
  | c :: t => isPrefixL needle (c :: t) || hasSubstr needle t

/-- Test `'email' in column.lower()` from the column-detection loop
(`.lower()` maps each character to lower case). -/
def containsEmail (column : String) : Bool :=
  hasSubstr "email".data (column.data.map Char.toLower)

/-- Embedding of the column-detection loop of `read_csv_content`: the index
of the first header column whose lower-cased name contains `"email"`. -/
def findEmailColumn : List String → Option Nat
  | [] => none
  | h :: hs =>
    if containsEmail h then some 0 else (findEmailColumn hs).map (· + 1)

/-- Default whitespace stripped by Python's `str.strip()` (for ASCII text). -/
def isStripChar (c : Char) : Bool :=
  c == ' ' || c == '\t' || c == '\n' || c == '\r' || c == '\x0b' || c == '\x0c'

/-- Embedding of `str.strip()`: remove leading and trailing whitespace. -/
def pyStrip (s : String) : String :=
  ⟨(((s.data.dropWhile isStripChar).reverse).dropWhile isStripChar).reverse⟩

/-- Embedding of the row-validation loop of `read_csv_content` over rows
given as lists of cell strings, with `i` the index of the email column.
A row with no cell at index `i` models `DictReader` yielding `None` for the
missing key, on which `.strip()` raises (propagated by the re-raising
`except` clause); otherwise the trimmed cell is either collected (valid) or
recorded as a warning (invalid).  Returns `(valid emails, warned values)`,
both in input row order. -/
def extractEmails (i : Nat) : List (List String) → Except String (List String × List String)
  | [] => .ok ([], [])
  | row :: rest =>
    match row.get? i with
    | none => .error "NoneType has no attribute strip"
    | some v =>
      let e := pyStrip v
      match extractEmails i rest with
      | .error msg => .error msg
      | .ok (vs, ws) =>
        if is_valid_email e then .ok (e :: vs, ws) else .ok (vs, e :: ws)

/-- Embedding of `EmailAutomation.read_csv_content`: locate the email
column, then validate each row.  `.error` models the raised exception
(`ValueError("No email column found in CSV")` when no header matches). -/
def read_csv_content (headers : List String) (rows : List (List String)) :
    Except String (List String × List String) :=
  match findEmailColumn headers with
  | none => .error "No email column found in CSV"
  | some i => extractEmails i rows

/-! ### Message construction (src/final.py lines 106-129) -/

/-- One MIME part of a constructed message: the HTML body part
(`MIMEText(content, 'html')`) or an attachment part (`MIMEImage` with a
`Content-Disposition: attachment` header carrying the file name). -/
inductive MsgPart where
  | html (content : String)
  | image (fileName : String) (payload : List Nat)
deriving DecidableEq, Repr

/-- The `MIMEMultipart` object built by `create_message`: headers
`From`/`To`/`Subject` plus the attached parts in attachment order. -/
structure Msg where
  sender : String
  recipient : String
  subject : String
  parts : List MsgPart
deriving DecidableEq, Repr

/-- Embedding of the attachment loop of `create_message`.  `imgOk` models
the standard library's image-type sniffing inside `MIMEImage`: when it
fails (corrupt or unrecognisable payload), the constructor raises and the
loop re-raises (`.error`); otherwise the part is appended in order. -/
def attachParts (imgOk : List Nat → Bool) :
    List (String × List Nat) → Except String (List MsgPart)
  | [] => .ok []
  | (name, payload) :: rest =>
    if imgOk payload then
      match attachParts imgOk rest with
      | .ok ps => .ok (MsgPart.image name payload :: ps)
      | .error e => .error e
    else .error ("Error attaching file " ++ name)

/-- Embedding of `EmailAutomation.create_message`.  `attachments = none`
models the default argument `None`; Python's `if attachments:` is falsy for
both `None` and the empty list, so both skip the attachment loop.  The HTML
body part is always attached first. -/
def create_message (imgOk : List Nat → Bool)
    (sender recipient subject content : String)
    (attachments : Option (List (String × List Nat))) : Except String Msg :=
  match attachments with
  | none => .ok ⟨sender, recipient, subject, [MsgPart.html content]⟩
  | some atts =>
    if atts.isEmpty then .ok ⟨sender, recipient, subject, [MsgPart.html content]⟩
    else
      match attachParts imgOk atts with
      | .ok ps => .ok ⟨sender, recipient, subject, MsgPart.html content :: ps⟩
      | .error e => .error e

/-! ### Dispatch engine (src/final.py lines 131-161)

The send loop is modelled as the trace of its observable effects.  For one
recipient the attempt oracles `b a` / `s a` tell whether `create_message`
respectively `smtp_server.send_message` succeed on the recipient's
`(a+1)`-th attempt (an attempt calls `create_message` always, and
`send_message` only when the build succeeded; an exception from either
counts as one failed attempt). -/

/-- One observable event of the dispatch loop.  A `progress k` event models
the call `progress_bar.progress((idx + 1) / len(emails))` with `k = idx + 1`
the numerator; the denominator is the fixed recipient count of the run, so
the pushed fraction is recovered by `k / total` (see `progressFractions`). -/
inductive Ev where
  | build (r : Nat)
  | send (r : Nat)
  | sentStatus (r : Nat)
  | retryStatus (r : Nat)
  | failStatus (r : Nat)
  | progress (k : Nat)
  | sleep (n : Nat)
  | completed
deriving DecidableEq, Repr

/-- Embedding of the `while retries > 0` loop for one recipient `r`.
`retries` is the remaining attempt budget (initially 3), `a` the 0-based
number of attempts already failed, `p` the progress numerator `idx + 1`
pushed on success.  Returns the emitted events and whether the recipient
was sent. -/
def sendOne (b s : Nat → Bool) (r : Nat) (p : Nat) :
    Nat → Nat → List Ev × Bool
  | 0, _ => ([], false)
  | retries + 1, a =>
    let tried : List Ev := if b a then [Ev.build r, Ev.send r] else [Ev.build r]
    if b a && s a then
      (tried ++ [Ev.sentStatus r, Ev.progress p, Ev.sleep 1], true)
    else if 0 < retries then
      let rest := sendOne b s r p retries (a + 1)
      (tried ++ [Ev.retryStatus r, Ev.sleep 2] ++ rest.1, rest.2)
    else
      (tried ++ [Ev.failStatus r], false)

/-- Embedding of `EmailAutomation.send_emails`: each recipient index is
driven through `sendOne` with budget 3, and the terminal
`"Email campaign completed!"` status is emitted after the loop. -/
def send_emails (b s : Nat → Nat → Bool) (emails : List String) : List Ev :=
  ((List.range emails.length).map (fun i =>
      (sendOne (b i) (s i) i (i + 1) 3 0).1)).flatten
    ++ [Ev.completed]

/-- The progress numerators pushed to the progress bar, in emission order. -/
def progressValues (evs : List Ev) : List Nat :=
  evs.filterMap fun e => match e with | .progress k => some k | _ => none

/-- The progress fractions pushed to the progress bar in a run with
`total` recipients, as exact rationals, in emission order. -/
def progressFractions (evs : List Ev) (total : Nat) : List ℚ :=
  (progressValues evs).map fun k : Nat => (k : ℚ) / (total : ℚ)

/-- The sleep durations, in order. -/
def sleepValues (evs : List Ev) : List Nat :=
  evs.filterMap fun e => match e with | .sleep n => some n | _ => none

/-- Number of `create_message` calls for recipient `r`, i.e. the number of
attempts made for `r`. -/
def buildCount (r : Nat) (evs : List Ev) : Nat :=
  (evs.filter fun e => match e with | .build r' => r' == r | _ => false).length

/-- Number of transport `send_message` calls in a trace. -/
def sendCount (evs : List Ev) : Nat :=
  (evs.filter fun e => match e with | .send _ => true | _ => false).length

/-- Number of success statuses in a trace (count of recipients sent). -/
def sentCount (evs : List Ev) : Nat :=
  (evs.filter fun e => match e with | .sentStatus _ => true | _ => false).length

/-- Whether some attempt among the next `k` (starting at attempt `a`)
fully succeeds: build and send both succeed. -/
def wins (b s : Nat → Bool) : Nat → Nat → Bool
  | 0, _ => false
  | k + 1, a => (b a && s a) || wins b s k (a + 1)

/-- Number of attempts the loop consumes out of a budget of `k` starting at
attempt `a`: attempts are consumed until the first success, or the whole
budget on total failure. -/
def attemptsUsed (b s : Nat → Bool) : Nat → Nat → Nat
  | 0, _ => 0
  | k + 1, a => if b a && s a then 1 else 1 + attemptsUsed b s k (a + 1)

/-! ### Entry point (src/final.py lines 164-226)

`main` is modelled path by path.  Python binds the local `automation` only
when line `automation = EmailAutomation(debug_mode)` executes; the
`finally` block reads `automation.smtp_server`, which raises
`UnboundLocalError` on paths where that line never ran.  `smtp_server` is
set by `setup_smtp` as soon as `smtplib.SMTP(...)` returns, before
`starttls()` and `login()`, so a connect that succeeds followed by a failed
TLS upgrade or login leaves `smtp_server` non-`None`. -/

/-- External inputs and failure pattern of one click of the Send button. -/
structure MainInput where
  csvPresent : Bool
  subjectPresent : Bool
  contentPresent : Bool
  headers : List String
  rows : List (List String)
  connectOk : Bool
  starttlsOk : Bool
  loginOk : Bool
  sendRaises : Bool
  partialSends : Nat
  bOk : Nat → Nat → Bool
  sOk : Nat → Nat → Bool

/-- Observable outcome of one `main` run. -/
structure MainResult where
  quitCalls : Nat
  uncaughtError : Bool
  handledError : Bool
  sends : Nat
  successShown : Bool
deriving DecidableEq, Repr

/-- The `finally` block: `if automation.smtp_server: automation.smtp_server.quit()`.
When `automation` was never bound, the lookup itself raises
`UnboundLocalError`, which escapes `main` (the `except` clause belongs to
the `try`, not to the `finally`). -/
def finallyQuit (automationBound smtpSet : Bool) (r : MainResult) : MainResult :=
  if automationBound then
    if smtpSet then { r with quitCalls := r.quitCalls + 1 } else r
  else
    { r with uncaughtError := true }

/-- Embedding of `main`'s `try/except/finally` after the Send button is
clicked. -/
def pyMain (inp : MainInput) : MainResult :=
  if !inp.csvPresent then
    finallyQuit false false ⟨0, false, false, 0, false⟩
  else if !inp.subjectPresent || !inp.contentPresent then
    finallyQuit false false ⟨0, false, false, 0, false⟩
  else
    match read_csv_content inp.headers inp.rows with
    | .error _ => finallyQuit true false ⟨0, false, true, 0, false⟩
    | .ok (emails, _) =>
      if emails.isEmpty then finallyQuit true false ⟨0, false, false, 0, false⟩
      else if !inp.connectOk then finallyQuit true false ⟨0, false, true, 0, false⟩
      else if !inp.starttlsOk || !inp.loginOk then
        finallyQuit true true ⟨0, false, true, 0, false⟩
      else if inp.sendRaises then
        finallyQuit true true ⟨0, false, true, inp.partialSends, false⟩
      else
        finallyQuit true true
          ⟨0, false, false, sendCount (send_emails inp.bOk inp.sOk emails), true⟩

/-! ### Helper lemmas about the trace extractors -/

@[simp]
theorem progressValues_nil : progressValues [] = [] := rfl

@[simp]
theorem progressValues_append (l₁ l₂ : List Ev) :
    progressValues (l₁ ++ l₂) = progressValues l₁ ++ progressValues l₂ :=
  List.filterMap_append l₁ l₂ _

@[simp]
theorem progressValues_cons_build (r : Nat) (evs : List Ev) :
    progressValues (Ev.build r :: evs) = progressValues evs := rfl

@[simp]
theorem progressValues_cons_send (r : Nat) (evs : List Ev) :
    progressValues (Ev.send r :: evs) = progressValues evs := rfl

@[simp]
theorem progressValues_cons_sentStatus (r : Nat) (evs : List Ev) :
    progressValues (Ev.sentStatus r :: evs) = progressValues evs := rfl

@[simp]
theorem progressValues_cons_retryStatus (r : Nat) (evs : List Ev) :
    progressValues (Ev.retryStatus r :: evs) = progressValues evs := rfl

@[simp]
theorem progressValues_cons_failStatus (r : Nat) (evs : List Ev) :
    progressValues (Ev.failStatus r :: evs) = progressValues evs := rfl

@[simp]
theorem progressValues_cons_progress (k : Nat) (evs : List Ev) :
    progressValues (Ev.progress k :: evs) = k :: progressValues evs := rfl

@[simp]
theorem progressValues_cons_sleep (n : Nat) (evs : List Ev) :
    progressValues (Ev.sleep n :: evs) = progressValues evs := rfl

@[simp]
theorem progressValues_cons_completed (evs : List Ev) :
    progressValues (Ev.completed :: evs) = progressValues evs := rfl

@[simp]
theorem sleepValues_nil : sleepValues [] = [] := rfl

@[simp]
theorem sleepValues_append (l₁ l₂ : List Ev) :
    sleepValues (l₁ ++ l₂) = sleepValues l₁ ++ sleepValues l₂ :=
  List.filterMap_append l₁ l₂ _

@[simp]
theorem sleepValues_cons_build (r : Nat) (evs : List Ev) :
    sleepValues (Ev.build r :: evs) = sleepValues evs := rfl

@[simp]
theorem sleepValues_cons_send (r : Nat) (evs : List Ev) :
    sleepValues (Ev.send r :: evs) = sleepValues evs := rfl

@[simp]
theorem sleepValues_cons_sentStatus (r : Nat) (evs : List Ev) :
    sleepValues (Ev.sentStatus r :: evs) = sleepValues evs := rfl

@[simp]
theorem sleepValues_cons_retryStatus (r : Nat) (evs : List Ev) :
    sleepValues (Ev.retryStatus r :: evs) = sleepValues evs := rfl

@[simp]
theorem sleepValues_cons_failStatus (r : Nat) (evs : List Ev) :
    sleepValues (Ev.failStatus r :: evs) = sleepValues evs := rfl

@[simp]
theorem sleepValues_cons_progress (k : Nat) (evs : List Ev) :
    sleepValues (Ev.progress k :: evs) = sleepValues evs := rfl

@[simp]
theorem sleepValues_cons_sleep (n : Nat) (evs : List Ev) :
    sleepValues (Ev.sleep n :: evs) = n :: sleepValues evs := rfl

@[simp]
theorem buildCount_nil (r : Nat) : buildCount r [] = 0 := rfl

@[simp]
theorem buildCount_append (r : Nat) (l₁ l₂ : List Ev) :
    buildCount r (l₁ ++ l₂) = buildCount r l₁ + buildCount r l₂ := by
  simp [buildCount, List.filter_append]

@[simp]
theorem buildCount_cons_build_self (r : Nat) (evs : List Ev) :
    buildCount r (Ev.build r :: evs) = buildCount r evs + 1 := by
  simp [buildCount, List.filter_cons]

@[simp]
theorem buildCount_cons_send (r r' : Nat) (evs : List Ev) :
    buildCount r (Ev.send r' :: evs) = buildCount r evs := rfl

@[simp]
theorem buildCount_cons_sentStatus (r r' : Nat) (evs : List Ev) :
    buildCount r (Ev.sentStatus r' :: evs) = buildCount r evs := rfl

@[simp]
theorem buildCount_cons_retryStatus (r r' : Nat) (evs : List Ev) :
    buildCount r (Ev.retryStatus r' :: evs) = buildCount r evs := rfl

@[simp]
theorem buildCount_cons_failStatus (r r' : Nat) (evs : List Ev) :
    buildCount r (Ev.failStatus r' :: evs) = buildCount r evs := rfl

@[simp]
theorem buildCount_cons_progress (r k : Nat) (evs : List Ev) :
    buildCount r (Ev.progress k :: evs) = buildCount r evs := rfl

@[simp]
theorem buildCount_cons_sleep (r n : Nat) (evs : List Ev) :
    buildCount r (Ev.sleep n :: evs) = buildCount r evs := rfl

/-! ### Helper lemmas about the per-recipient retry loop -/

theorem sendOne_succ (b s : Nat → Bool) (r p k a : Nat) :
    sendOne b s r p (k + 1) a =
      if b a && s a then
        ((if b a then [Ev.build r, Ev.send r] else [Ev.build r]) ++
          [Ev.sentStatus r, Ev.progress p, Ev.sleep 1], true)
      else if 0 < k then
        ((if b a then [Ev.build r, Ev.send r] else [Ev.build r]) ++
          [Ev.retryStatus r, Ev.sleep 2] ++ (sendOne b s r p k (a + 1)).1,
         (sendOne b s r p k (a + 1)).2)
      else
        ((if b a then [Ev.build r, Ev.send r] else [Ev.build r]) ++
          [Ev.failStatus r], false) := rfl

theorem sendOne_snd (b s : Nat → Bool) (r p : Nat) :
    ∀ k a, (sendOne b s r p k a).2 = wins b s k a := by
  intro k
  induction k with
  | zero => intro a; rfl
  | succ n ih =>
    intro a
    rw [sendOne_succ]
    cases hb : b a <;> cases hs : s a <;> cases n <;>
      simp [wins, hb, hs, ih]

theorem sendOne_pv (b s : Nat → Bool) (r p : Nat) :
    ∀ k a, progressValues (sendOne b s r p k a).1 =
      (if wins b s k a then [p] else []) := by
  intro k
  induction k with
  | zero => intro a; rfl
  | succ n ih =>
    intro a
    rw [sendOne_succ]
    cases hb : b a <;> cases hs : s a <;> cases n <;>
      simp [wins, hb, hs, ih]

theorem attemptsUsed_le (b s : Nat → Bool) :
    ∀ k a, attemptsUsed b s k a ≤ k := by
  intro k
  induction k with
  | zero => intro a; exact Nat.le_refl 0
  | succ n ih =>
    intro a
    simp only [attemptsUsed]
    cases h : b a && s a with
    | true => simp
    | false => simpa [Nat.add_comm] using Nat.succ_le_succ (ih (a + 1))

theorem attemptsUsed_pos (b s : Nat → Bool) (k a : Nat) (hk : 0 < k) :
    0 < attemptsUsed b s k a := by
  cases k with
  | zero => exact absurd hk (Nat.lt_irrefl 0)
  | succ n =>
    simp only [attemptsUsed]
    cases h : b a && s a <;> simp

theorem attemptsUsed_of_all_fail (b s : Nat → Bool) :
    ∀ k a, (∀ j, j < k → (b (a + j) && s (a + j)) = false) →
      attemptsUsed b s k a = k := by
  intro k
  induction k with
  | zero => intro a _; rfl
  | succ n ih =>
    intro a h
    have h0 : (b a && s a) = false := by simpa using h 0 (Nat.succ_pos n)
    have hrest : ∀ j, j < n → (b (a + 1 + j) && s (a + 1 + j)) = false := by
      intro j hj
      have := h (j + 1) (Nat.succ_lt_succ hj)
      simpa [Nat.add_assoc, Nat.add_comm 1 j] using this
    simp [attemptsUsed, h0, ih (a + 1) hrest, Nat.add_comm]

theorem wins_eq_false_of_all_fail (b s : Nat → Bool) :
    ∀ k a, (∀ j, j < k → (b (a + j) && s (a + j)) = false) →
      wins b s k a = false := by
  intro k
  induction k with
  | zero => intro a _; rfl
  | succ n ih =>
    intro a h
    have h0 : (b a && s a) = false := by simpa using h 0 (Nat.succ_pos n)
    have hrest : ∀ j, j < n → (b (a + 1 + j) && s (a + 1 + j)) = false := by
      intro j hj
      have := h (j + 1) (Nat.succ_lt_succ hj)
      simpa [Nat.add_assoc, Nat.add_comm 1 j] using this
    simp [wins, h0, ih (a + 1) hrest]

/-- Number of backoff pauses the retry loop emits out of a budget of `k`
starting at attempt `a`: one between any two consecutive attempts. -/
def backoffs (b s : Nat → Bool) : Nat → Nat → Nat
  | 0, _ => 0
  | k + 1, a =>
    if b a && s a then 0
    else if 0 < k then 1 + backoffs b s k (a + 1) else 0

theorem backoffs_eq (b s : Nat → Bool) :
    ∀ k a, backoffs b s k a = attemptsUsed b s k a - 1 := by
  intro k
  induction k with
  | zero => intro a; rfl
  | succ n ih =>
    intro a
    simp only [backoffs, attemptsUsed]
    cases h : b a && s a with
    | true => simp
    | false =>
      cases n with
      | zero => simp [attemptsUsed]
      | succ m =>
        have hpos := attemptsUsed_pos b s (m + 1) (a + 1) (Nat.succ_pos m)
        simp only [Bool.false_eq_true, if_false, Nat.succ_pos, if_true, ih]
        omega

theorem sendOne_sleeps (b s : Nat → Bool) (r p : Nat) :
    ∀ k a, sleepValues (sendOne b s r p k a).1 =
      List.replicate (backoffs b s k a) 2 ++
        (if wins b s k a then [1] else []) := by
  intro k
  induction k with
  | zero => intro a; rfl
  | succ n ih =>
    intro a
    rw [sendOne_succ]
    cases hb : b a <;> cases hs : s a <;> cases n <;>
      simp [wins, backoffs, hb, hs, ih, List.replicate_add]

theorem sendOne_build (b s : Nat → Bool) (r p : Nat) :
    ∀ k a, buildCount r (sendOne b s r p k a).1 = attemptsUsed b s k a := by
  intro k
  induction k with
  | zero => intro a; rfl
  | succ n ih =>
    intro a
    rw [sendOne_succ]
    cases hb : b a <;> cases hs : s a <;> cases n <;>
      simp [attemptsUsed, hb, hs, ih, Nat.add_comm]

theorem sendOne_ne_nil (b s : Nat → Bool) (r p k a : Nat) (hk : 0 < k) :
    (sendOne b s r p k a).1 ≠ [] := by
  cases k with
  | zero => exact absurd hk (Nat.lt_irrefl 0)
  | succ n =>
    rw [sendOne_succ]
    cases hb : b a <;> cases hs : s a <;> cases n <;> simp [hb, hs]

theorem sendOne_succ_ne_nil (b s : Nat → Bool) (r p k a : Nat) :
    (sendOne b s r p (k + 1) a).1 ≠ [] :=
  sendOne_ne_nil b s r p (k + 1) a (Nat.succ_pos k)

theorem getLast?_cons_of_ne_nil {α : Type} (x : α) (l : List α) (h : l ≠ []) :
    (x :: l).getLast? = l.getLast? :=
  List.getLast?_append_of_ne_nil [x] h

theorem sendOne_last (b s : Nat → Bool) (r p : Nat) :
    ∀ k a, (sendOne b s r p (k + 1) a).1.getLast? =
      some (if wins b s (k + 1) a then Ev.sleep 1 else Ev.failStatus r) := by
  intro k
  induction k with
  | zero =>
    intro a
    rw [sendOne_succ]
    cases hb : b a <;> cases hs : s a <;>
      simp [wins, hb, hs, getLast?_cons_of_ne_nil]
  | succ n ih =>
    intro a
    rw [sendOne_succ]
    cases hb : b a <;> cases hs : s a <;>
      simp [wins, hb, hs, ih, getLast?_cons_of_ne_nil, sendOne_succ_ne_nil]

theorem sendOne_mem_sent (b s : Nat → Bool) (r p : Nat) :
    ∀ k a, Ev.sentStatus r ∈ (sendOne b s r p k a).1 ↔ wins b s k a = true := by
  intro k
  induction k with
  | zero => intro a; simp [sendOne, wins]
  | succ n ih =>
    intro a
    rw [sendOne_succ]
    cases hb : b a <;> cases hs : s a <;> cases n <;>
      simp [wins, hb, hs, ih]

theorem sendOne_mem_fail (b s : Nat → Bool) (r p : Nat) :
    ∀ k a, Ev.failStatus r ∈ (sendOne b s r p k a).1 ↔
      (0 < k ∧ wins b s k a = false) := by
  intro k
  induction k with
  | zero => intro a; simp [sendOne, wins]
  | succ n ih =>
    intro a
    rw [sendOne_succ]
    cases hb : b a <;> cases hs : s a <;> cases n <;>
      simp [wins, hb, hs, ih]

theorem sendOne_mem_progress (b s : Nat → Bool) (r p : Nat) :
    ∀ k a, Ev.progress p ∈ (sendOne b s r p k a).1 ↔ wins b s k a = true := by
  intro k
  induction k with
  | zero => intro a; simp [sendOne, wins]
  | succ n ih =>
    intro a
    rw [sendOne_succ]
    cases hb : b a <;> cases hs : s a <;> cases n <;>
      simp [wins, hb, hs, ih]

/-! ### Helper lemmas about the full campaign trace -/

theorem flatten_map_ite {α β : Type} (g : α → β) (p : α → Bool) (l : List α) :
    (l.map (fun i => if p i then [g i] else [])).flatten = (l.filter p).map g := by
  induction l with
  | nil => rfl
  | cons x xs ih => cases h : p x <;> simp [List.filter_cons, h, ih]

theorem progressValues_flatten (L : List (List Ev)) :
    progressValues L.flatten = (L.map progressValues).flatten := by
  induction L with
  | nil => rfl
  | cons x xs ih => simp [ih]

theorem pv_send_emails (b s : Nat → Nat → Bool) (emails : List String) :
    progressValues (send_emails b s emails) =
      ((List.range emails.length).filter
        (fun i => wins (b i) (s i) 3 0)).map (fun i => i + 1) := by
  unfold send_emails
  rw [progressValues_append, progressValues_flatten, List.map_map]
  have hcong :
      (List.range emails.length).map
          (progressValues ∘ fun i => (sendOne (b i) (s i) i (i + 1) 3 0).1) =
        (List.range emails.length).map
          (fun i => if wins (b i) (s i) 3 0 then [i + 1] else []) := by
    apply List.map_congr_left
    intro i _
    exact sendOne_pv (b i) (s i) i (i + 1) 3 0
  rw [hcong, flatten_map_ite]
  simp [progressValues]

/-! ### Claim C1 -/

/-- C1, counterexample: with two recipients where recipient 0 never sends
(all 3 attempts fail) and recipient 1 succeeds immediately, the run emits
exactly one progress fraction, `2/2 = 1`, although only 1 of the 2
recipients was sent: the emitted value is not `successes so far / total`
(which would be `1/2`), and `1.0` is reached although recipient 0 never
succeeds. -/
theorem progress_fraction_counterexample :
    progressFractions
        (send_emails (fun _ _ => true) (fun r _ => decide (r = 1)) ["a", "b"])
        (["a", "b"] : List String).length = [(1 : ℚ)]
    ∧ sentCount (send_emails (fun _ _ => true) (fun r _ => decide (r = 1)) ["a", "b"]) = 1
    ∧ (["a", "b"] : List String).length = 2
    ∧ Ev.failStatus 0 ∈ send_emails (fun _ _ => true) (fun r _ => decide (r = 1)) ["a", "b"]
    ∧ (1 : ℚ) ≠ (1 : ℚ) / 2 := by
  refine ⟨?_, by decide, by decide, by decide, by norm_num⟩
  have h : progressValues
      (send_emails (fun _ _ => true) (fun r _ => decide (r = 1)) ["a", "b"]) = [2] := by
    decide
  rw [progressFractions, h]
  norm_num

/-- C1, amended: every emitted progress fraction equals
`(index of the recipient just sent + 1) / total` — position-based, not
success-count-based; the emitted sequence is monotonically non-decreasing;
and (for a nonempty recipient list) the value `1.0` is emitted exactly when
the LAST recipient eventually succeeds, regardless of earlier failures. -/
theorem progress_fractions_position_based (b s : Nat → Nat → Bool)
    (emails : List String) (hn : 0 < emails.length) :
    progressFractions (send_emails b s emails) emails.length =
      ((List.range emails.length).filter (fun i => wins (b i) (s i) 3 0)).map
        (fun i : Nat => ((i : ℚ) + 1) / (emails.length : ℚ))
    ∧ List.Chain' (· ≤ ·) (progressFractions (send_emails b s emails) emails.length)
    ∧ ((1 : ℚ) ∈ progressFractions (send_emails b s emails) emails.length ↔
        wins (b (emails.length - 1)) (s (emails.length - 1)) 3 0 = true) := by
  have hnQ : (0 : ℚ) < (emails.length : ℚ) := by exact_mod_cast hn
  have heq : progressFractions (send_emails b s emails) emails.length =
      ((List.range emails.length).filter (fun i => wins (b i) (s i) 3 0)).map
        (fun i : Nat => ((i : ℚ) + 1) / (emails.length : ℚ)) := by
    rw [progressFractions, pv_send_emails, List.map_map]
    apply List.map_congr_left
    intro i _
    simp [Function.comp]
  refine ⟨heq, ?_, ?_⟩
  · rw [heq]
    apply List.Pairwise.chain'
    rw [List.pairwise_map]
    have hp : ((List.range emails.length).filter
        (fun i => wins (b i) (s i) 3 0)).Pairwise (· < ·) :=
      List.Pairwise.sublist (List.filter_sublist _) (List.pairwise_lt_range emails.length)
    apply hp.imp
    intro i j hij
    gcongr
  · rw [heq]
    constructor
    · intro h1
      obtain ⟨i, hi, hval⟩ := List.mem_map.mp h1
      obtain ⟨hir, hwi⟩ := List.mem_filter.mp hi
      have hiN : i < emails.length := List.mem_range.mp hir
      have hcast : (i : ℚ) + 1 = (emails.length : ℚ) := by
        field_simp at hval
        linarith [hval]
      have : i + 1 = emails.length := by exact_mod_cast hcast
      have : i = emails.length - 1 := by omega
      rw [this] at hwi
      simpa using hwi
    · intro hw
      apply List.mem_map.mpr
      refine ⟨emails.length - 1, List.mem_filter.mpr
        ⟨List.mem_range.mpr (by omega), by simpa using hw⟩, ?_⟩
      have hcast : ((emails.length - 1 : Nat) : ℚ) = (emails.length : ℚ) - 1 := by
        have : 1 ≤ emails.length := hn
        push_cast [this]
        ring
      rw [hcast]
      field_simp

/-- Witness for `progress_fractions_position_based` at a concrete run:
both of two recipients succeed immediately, so `1.0` is emitted. -/
theorem progress_fractions_position_based_witness :
    (1 : ℚ) ∈ progressFractions
      (send_emails (fun _ _ => true) (fun _ _ => true) ["a", "b"])
      (["a", "b"] : List String).length :=
  (progress_fractions_position_based (fun _ _ => true) (fun _ _ => true)
    ["a", "b"] (by decide)).2.2.mpr (by decide)

/-! ### Claim C2 -/

/-- C2: per recipient the loop makes at most 3 attempts (each attempt calls
`create_message` exactly once, so attempts are counted by `build` events);
when every one of the 3 attempts fails — whether the build or the send step
raises — exactly 3 attempts are consumed; and the emitted sleeps are one
flat 2-unit backoff between consecutive attempts (attempts minus one of
them, with no growth), followed by the 1-unit pacing sleep only on
success. -/
theorem retry_budget_and_flat_backoff (b s : Nat → Bool) (r p : Nat) :
    buildCount r (sendOne b s r p 3 0).1 ≤ 3
    ∧ ((∀ a, a < 3 → (b a && s a) = false) →
        buildCount r (sendOne b s r p 3 0).1 = 3)
    ∧ sleepValues (sendOne b s r p 3 0).1 =
        List.replicate (buildCount r (sendOne b s r p 3 0).1 - 1) 2 ++
          (if (sendOne b s r p 3 0).2 then [1] else []) := by
  have hb := sendOne_build b s r p 3 0
  refine ⟨?_, ?_, ?_⟩
  · rw [hb]; exact attemptsUsed_le b s 3 0
  · intro h
    rw [hb]
    exact attemptsUsed_of_all_fail b s 3 0 (by simpa using h)
  · rw [hb, sendOne_sleeps, backoffs_eq, sendOne_snd]

/-- Witness for `retry_budget_and_flat_backoff`: with build always
succeeding and send always failing, exactly 3 attempts are consumed. -/
theorem retry_budget_and_flat_backoff_witness :
    buildCount 0 (sendOne (fun _ => true) (fun _ => false) 0 1 3 0).1 = 3 :=
  (retry_budget_and_flat_backoff (fun _ => true) (fun _ => false) 0 1).2.1
    (by decide)

/-! ### Claim C3 -/

/-- C3: for every failure pattern, every recipient of the list reaches a
terminal outcome (a `sentStatus` or a `failStatus` event is emitted for
every index, so no per-recipient failure aborts the campaign); a recipient
whose 3 attempts are exhausted gets the `failStatus` record; and the run
always ends with the terminal campaign-completed status. -/
theorem failure_isolation_and_completion (b s : Nat → Nat → Bool)
    (emails : List String) :
    (send_emails b s emails).getLast? = some Ev.completed
    ∧ ∀ r, r < emails.length →
        ((Ev.sentStatus r ∈ send_emails b s emails
          ∨ Ev.failStatus r ∈ send_emails b s emails)
         ∧ (wins (b r) (s r) 3 0 = false →
            Ev.failStatus r ∈ send_emails b s emails)) := by
  constructor
  · unfold send_emails
    exact List.getLast?_concat _
  · intro r hr
    have hblock : (sendOne (b r) (s r) r (r + 1) 3 0).1 ∈
        ((List.range emails.length).map
          (fun i => (sendOne (b i) (s i) i (i + 1) 3 0).1)) :=
      List.mem_map.mpr ⟨r, List.mem_range.mpr hr, rfl⟩
    have hsub : ∀ e, e ∈ (sendOne (b r) (s r) r (r + 1) 3 0).1 →
        e ∈ send_emails b s emails := by
      intro e he
      unfold send_emails
      exact List.mem_append_left _ (List.mem_flatten.mpr ⟨_, hblock, he⟩)
    constructor
    · cases hwin : wins (b r) (s r) 3 0 with
      | true =>
        exact Or.inl (hsub _ ((sendOne_mem_sent _ _ r (r + 1) 3 0).mpr hwin))
      | false =>
        exact Or.inr (hsub _
          ((sendOne_mem_fail _ _ r (r + 1) 3 0).mpr ⟨by decide, hwin⟩))
    · intro hwin
      exact hsub _ ((sendOne_mem_fail _ _ r (r + 1) 3 0).mpr ⟨by decide, hwin⟩)

/-- Witness for `failure_isolation_and_completion`: a recipient whose
attempts all fail is recorded as failed. -/
theorem failure_isolation_and_completion_witness :
    Ev.failStatus 0 ∈ send_emails (fun _ _ => false) (fun _ _ => false) ["a"] :=
  ((failure_isolation_and_completion (fun _ _ => false) (fun _ _ => false)
    ["a"]).2 0 (by decide)).2 (by decide)

/-! ### Claim C8 -/

/-- C8: a recipient whose send fails on attempts 1 and 2 and succeeds on
attempt 3 resolves as sent and contributes a progress emission; and after
every successful send the loop's final action for that recipient is the
1-unit pacing sleep. -/
theorem retry_recovery_and_pacing (b s : Nat → Bool) (r p : Nat) :
    (b 0 = true → s 0 = false → b 1 = true → s 1 = false →
      b 2 = true → s 2 = true →
      (sendOne b s r p 3 0).2 = true ∧ Ev.progress p ∈ (sendOne b s r p 3 0).1)
    ∧ ((sendOne b s r p 3 0).2 = true →
        (sendOne b s r p 3 0).1.getLast? = some (Ev.sleep 1)) := by
  constructor
  · intro hb0 hs0 hb1 hs1 hb2 hs2
    have hwin : wins b s 3 0 = true := by
      simp [wins, hb0, hs0, hb1, hs1, hb2, hs2]
    refine ⟨?_, (sendOne_mem_progress b s r p 3 0).mpr hwin⟩
    rw [sendOne_snd]
    exact hwin
  · intro h2
    have hwin : wins b s 3 0 = true := by
      rw [← sendOne_snd b s r p 3 0]
      exact h2
    rw [sendOne_last b s r p 2 0, hwin]
    simp

/-- Witness for `retry_recovery_and_pacing`: send fails twice then
succeeds; the recipient resolves sent with a progress emission. -/
theorem retry_recovery_and_pacing_witness :
    (sendOne (fun _ => true) (fun a => decide (a = 2)) 0 1 3 0).2 = true
    ∧ Ev.progress 1 ∈ (sendOne (fun _ => true) (fun a => decide (a = 2)) 0 1 3 0).1 :=
  (retry_recovery_and_pacing (fun _ => true) (fun a => decide (a = 2)) 0 1).1
    (by decide) (by decide) (by decide) (by decide) (by decide) (by decide)

/-! ### Claim C4 -/

/-- Characterisation of the row-validation loop when every row has a cell
in the email column: the valid addresses are exactly the trimmed fields
passing the validity check, in input row order, and every other row's
trimmed field is recorded as a warning, also in order. -/
theorem extractEmails_spec (i : Nat) :
    ∀ rows : List (List String), (∀ row ∈ rows, i < row.length) →
      extractEmails i rows =
        .ok ((rows.map (fun row => pyStrip (row.getD i ""))).filter
               (fun e => is_valid_email e),
             (rows.map (fun row => pyStrip (row.getD i ""))).filter
               (fun e => !is_valid_email e)) := by
  intro rows
  induction rows with
  | nil => intro _; rfl
  | cons row rest ih =>
    intro h
    have hi : i < row.length := h row (List.mem_cons_self row rest)
    have hv : row.get? i = some (row.getD i "") := by
      rw [List.get?_eq_getElem?, List.getD_eq_getElem?_getD,
        List.getElem?_eq_getElem hi]
      rfl
    have hrest : ∀ r ∈ rest, i < r.length := fun r hr => h r (List.mem_cons_of_mem row hr)
    simp only [extractEmails, hv, ih hrest, List.map_cons, List.filter_cons]
    cases hval : is_valid_email (pyStrip (row.getD i "")) <;> simp [hval]

/-- C4: given a table whose header has an email-bearing column (index `i`)
and whose rows all carry that field, extraction returns exactly the rows
whose trimmed email field passes the validity check, in input order;
each failing row's field is recorded as a warning; and extraction does not
raise (`.ok`). -/
theorem extraction_filters_in_order (headers : List String)
    (rows : List (List String)) (i : Nat)
    (hcol : findEmailColumn headers = some i)
    (hrows : ∀ row ∈ rows, i < row.length) :
    read_csv_content headers rows =
      .ok ((rows.map (fun row => pyStrip (row.getD i ""))).filter
             (fun e => is_valid_email e),
           (rows.map (fun row => pyStrip (row.getD i ""))).filter
             (fun e => !is_valid_email e)) := by
  unfold read_csv_content
  rw [hcol]
  exact extractEmails_spec i rows hrows

/-- Witness for `extraction_filters_in_order` on the specification's own
end-to-end example: rows `a@x.com`, `bad`, `b@y.com` yield the two valid
addresses in order and one warning. -/
theorem extraction_filters_in_order_witness :
    read_csv_content ["Email"] [["a@x.com"], ["bad"], ["b@y.com"]] =
      .ok (["a@x.com", "b@y.com"], ["bad"]) := by
  have h := extraction_filters_in_order ["Email"]
    [["a@x.com"], ["bad"], ["b@y.com"]] 0 (by decide) (by decide)
  rw [h]
  rfl

/-! ### Claim C5 -/

theorem findEmailColumn_eq_none (headers : List String) :
    findEmailColumn headers = none ↔ ∀ h ∈ headers, containsEmail h = false := by
  induction headers with
  | nil => simp [findEmailColumn]
  | cons h hs ih =>
    cases hc : containsEmail h with
    | true => simp [findEmailColumn, hc]
    | false => simp [findEmailColumn, hc, Option.map_eq_none', ih]

theorem finallyQuit_sends (a b : Bool) (r : MainResult) :
    (finallyQuit a b r).sends = r.sends := by
  unfold finallyQuit
  split
  · split <;> rfl
  · rfl

/-- C5: detection picks the first header column (in column order) whose
name contains `"email"` case-insensitively; and when no header contains
that substring, extraction fails with the schema error and the whole run
performs zero transport sends, whatever the rest of the input is. -/
theorem email_column_first_match_or_abort (headers : List String) :
    (∀ i, findEmailColumn headers = some i →
      i < headers.length ∧ containsEmail (headers.getD i "") = true ∧
      ∀ j, j < i → containsEmail (headers.getD j "") = false)
    ∧ ((∀ h ∈ headers, containsEmail h = false) →
        (∀ rows, read_csv_content headers rows =
          .error "No email column found in CSV")
        ∧ ∀ inp : MainInput, inp.headers = headers → (pyMain inp).sends = 0) := by
  constructor
  · induction headers with
    | nil => intro i h; simp [findEmailColumn] at h
    | cons h hs ih =>
      intro i hi
      by_cases hc : containsEmail h
      · simp [findEmailColumn, hc] at hi
        subst hi
        exact ⟨Nat.succ_pos _, by simpa using hc, fun j hj => absurd hj (Nat.not_lt_zero j)⟩
      · rw [findEmailColumn, if_neg hc] at hi
        obtain ⟨i', hi', rfl⟩ := Option.map_eq_some'.mp hi
        obtain ⟨h1, h2, h3⟩ := ih i' hi'
        refine ⟨Nat.succ_lt_succ h1, by simpa using h2, ?_⟩
        intro j hj
        cases j with
        | zero => simpa using Bool.not_eq_true _ ▸ hc
        | succ j' =>
          have := h3 j' (Nat.lt_of_succ_lt_succ hj)
          simpa using this
  · intro hall
    have hnone : findEmailColumn headers = none :=
      (findEmailColumn_eq_none headers).mpr hall
    have herr : ∀ rows, read_csv_content headers rows =
        .error "No email column found in CSV" := by
      intro rows
      unfold read_csv_content
      rw [hnone]
    refine ⟨herr, ?_⟩
    intro inp hh
    have hrcsv := hh ▸ herr inp.rows
    simp only [pyMain, hrcsv]
    split
    · simp [finallyQuit_sends]
    · split
      · simp [finallyQuit_sends]
      · simp [finallyQuit_sends]

/-- Witness for `email_column_first_match_or_abort`: a header list with no
email-bearing column makes extraction fail with the schema error. -/
theorem email_column_first_match_or_abort_witness :
    read_csv_content ["Name", "Phone"] [["a@x.com"]] =
      .error "No email column found in CSV" :=
  ((email_column_first_match_or_abort ["Name", "Phone"]).2 (by decide)).1
    [["a@x.com"]]

/-! ### Claim C6 -/

/-- A string has a final dot-separated label of at least 2 letters: some
dot splits it so that everything after the dot is purely alphabetic with
length at least 2 (the spec's success shape for the domain ending). -/
def HasFinalLabel (s : String) : Prop :=
  ∃ p t : List Char, s.data = p ++ '.' :: t ∧ t ≠ [] ∧
    t.all Char.isAlpha = true ∧ 2 ≤ t.length

theorem not_hasFinalLabel_of_last_not_alpha (s : String) (c : Char)
    (hlast : s.data.getLast? = some c) (hc : c.isAlpha = false) :
    ¬ HasFinalLabel s := by
  rintro ⟨p, t, heq, hne, hall, _⟩
  have h1 : s.data.getLast? = t.getLast? := by
    rw [heq, List.getLast?_append_of_ne_nil _ (List.cons_ne_nil '.' t),
      getLast?_cons_of_ne_nil _ _ hne]
  rw [hlast, List.getLast?_eq_getLast t hne] at h1
  have hmem : t.getLast hne ∈ t := List.getLast_mem hne
  have halpha : (t.getLast hne).isAlpha = true := by
    have := List.all_eq_true.mp hall _ hmem
    simpa using this
  have hceq : c = t.getLast hne := Option.some.inj h1
  rw [← hceq, hc] at halpha
  cases halpha

theorem exists_final_label_of_coreMatch (cs : List Char)
    (h : coreMatch cs = true) :
    ∃ p t : List Char, cs = p ++ '.' :: t ∧ t ≠ [] ∧
      t.all Char.isAlpha = true ∧ 2 ≤ t.length := by
  unfold coreMatch at h
  simp only [Bool.and_eq_true, beq_iff_eq] at h
  obtain ⟨⟨⟨hhead, _⟩, _⟩, hdm⟩ := h
  set rest := cs.dropWhile (fun c => c != '@') with hrest
  have hrest_shape : rest = '@' :: rest.tail := by
    cases hr : rest with
    | nil => rw [hr] at hhead; cases hhead
    | cons c r =>
      rw [hr] at hhead
      simp at hhead
      rw [hhead]
      rfl
  unfold domainMatch at hdm
  simp only [Bool.and_eq_true, beq_iff_eq, decide_eq_true_eq] at hdm
  obtain ⟨⟨⟨htlen, hdhead⟩, _⟩, _⟩ := hdm
  set rev := rest.tail.reverse with hrev
  set t := rev.takeWhile Char.isAlpha with ht
  set dw := rev.dropWhile Char.isAlpha with hdw
  have hdw_shape : dw = '.' :: dw.tail := by
    cases hd : dw with
    | nil => rw [hd] at hdhead; cases hdhead
    | cons c r =>
      rw [hd] at hdhead
      simp at hdhead
      rw [hdhead]
      rfl
  have hsplit : t ++ dw = rev := List.takeWhile_append_dropWhile Char.isAlpha rev
  have hrev_eq : rev = t ++ '.' :: dw.tail := by
    rw [← hsplit, ← hdw_shape]
  have hdomain : rest.tail = dw.tail.reverse ++ '.' :: t.reverse := by
    have h2 : rest.tail = rev.reverse := by rw [hrev, List.reverse_reverse]
    rw [h2, hrev_eq]
    simp [List.reverse_append]
  have hcs : cs = cs.takeWhile (fun c => c != '@') ++ rest :=
    (List.takeWhile_append_dropWhile (fun c => c != '@') cs).symm
  refine ⟨cs.takeWhile (fun c => c != '@') ++ '@' :: dw.tail.reverse,
    t.reverse, ?_, ?_, ?_, ?_⟩
  · conv_lhs => rw [hcs, hrest_shape, hdomain]
    simp
  · intro hnil
    have : t.length = 0 := by
      simpa using congrArg List.length hnil
    omega
  · rw [List.all_eq_true]
    intro c hcmem
    have : c ∈ t := List.mem_reverse.mp hcmem
    exact List.mem_takeWhile_imp this
  · simpa using htlen

theorem coreMatch_eq_false_of_no_at (cs : List Char) (h : '@' ∉ cs) :
    coreMatch cs = false := by
  have hdrop : cs.dropWhile (fun c => c != '@') = [] := by
    rw [List.dropWhile_eq_nil_iff]
    intro x hx
    simp only [bne_iff_ne, ne_eq]
    intro heq
    exact h (heq ▸ hx)
  unfold coreMatch
  rw [hdrop]
  rfl

/-- C6, counterexample: the string `"a@b.co\n"` has no final dot-separated
label of at least 2 letters (its final character is a newline, not a
letter), yet the validator accepts it, because Python's `$` anchor also
matches just before a single trailing newline. -/
theorem validator_trailing_newline_counterexample :
    is_valid_email "a@b.co\n" = true ∧ ¬ HasFinalLabel "a@b.co\n" := by
  constructor
  · decide
  · exact not_hasFinalLabel_of_last_not_alpha _ '\n' (by decide) (by decide)

/-- C6, amended: every string fully matching the pattern is accepted; every
string without an `@` is rejected; and a string lacking a final
dot-separated label of at least 2 letters is rejected unless it consists of
a matching string followed by exactly one trailing newline (Python's `$`
matches just before a final newline), in which case it is accepted. -/
theorem validator_spec_amended (s : String) :
    (coreMatch s.data = true → is_valid_email s = true)
    ∧ ('@' ∉ s.data → is_valid_email s = false)
    ∧ (¬ HasFinalLabel s →
        is_valid_email s =
          (decide (s.data.getLast? = some '\n') && coreMatch s.data.dropLast)) := by
  refine ⟨?_, ?_, ?_⟩
  · intro h
    unfold is_valid_email
    rw [h]
    rfl
  · intro h
    have h2 : '@' ∉ s.data.dropLast :=
      fun hm => h ((List.dropLast_sublist s.data).subset hm)
    unfold is_valid_email
    rw [coreMatch_eq_false_of_no_at _ h, coreMatch_eq_false_of_no_at _ h2]
    simp
  · intro h
    have hcm : coreMatch s.data = false := by
      cases hc : coreMatch s.data with
      | false => rfl
      | true =>
        obtain ⟨p, t, heq, hne, hall, hlen⟩ :=
          exists_final_label_of_coreMatch _ hc
        exact absurd ⟨p, t, heq, hne, hall, hlen⟩ h
    unfold is_valid_email
    rw [hcm]
    simp

/-- Witness for `validator_spec_amended`: `"ab1"` (no `@`, no final
letter label, no trailing newline) is rejected. -/
theorem validator_spec_amended_witness :
    is_valid_email "ab1" = false := by
  have h := (validator_spec_amended "ab1").2.2
    (not_hasFinalLabel_of_last_not_alpha "ab1" '1' (by decide) (by decide))
  rw [h]
  decide

/-! ### Claim C7 -/

/-- C7 fails on the code: on the path where the Send button is clicked
with no CSV uploaded the `finally` block reads the never-assigned local
`automation`, raising `UnboundLocalError` — an error escapes on a path
where the session was never opened and close should have been a silent
no-op; on the path where the connection opens but login fails (`open`
never succeeded), `quit()` is nevertheless invoked on the half-open
session, so close is not a no-op there; on a fully successful run close is
invoked exactly once. -/
theorem close_not_guaranteed_on_all_paths :
    (pyMain ⟨false, true, true, [], [], true, true, true, false, 0,
        fun _ _ => true, fun _ _ => true⟩).uncaughtError = true
    ∧ (pyMain ⟨false, true, true, [], [], true, true, true, false, 0,
        fun _ _ => true, fun _ _ => true⟩).quitCalls = 0
    ∧ (pyMain ⟨true, true, true, ["Email"], [["a@x.com"]], true, true, false,
        false, 0, fun _ _ => true, fun _ _ => true⟩).quitCalls = 1
    ∧ (pyMain ⟨true, true, true, ["Email"], [["a@x.com"]], true, true, true,
        false, 0, fun _ _ => true, fun _ _ => true⟩).quitCalls = 1
    ∧ (pyMain ⟨true, true, true, ["Email"], [["a@x.com"]], true, true, true,
        false, 0, fun _ _ => true, fun _ _ => true⟩).uncaughtError = false := by
  refine ⟨by decide, by decide, by decide, by decide, by decide⟩

/-! ### Claims C9 and C10 -/

/-- C9: message construction is deterministic and repeatable — the embedded
`create_message` is a pure function of the sender, recipient, subject, body
and attachment list (its only other effect in the source is informational
logging), so two builds from equal inputs are equal, and a successful build
carries exactly the given sender, recipient and subject. -/
theorem create_message_deterministic (imgOk : List Nat → Bool)
    (sender recipient subject content : String)
    (attachments : Option (List (String × List Nat))) :
    create_message imgOk sender recipient subject content attachments =
      create_message imgOk sender recipient subject content attachments
    ∧ ∀ m, create_message imgOk sender recipient subject content attachments =
        .ok m →
      m.sender = sender ∧ m.recipient = recipient ∧ m.subject = subject := by
  refine ⟨rfl, ?_⟩
  intro m hm
  cases attachments with
  | none =>
    simp only [create_message, Except.ok.injEq] at hm
    subst hm
    exact ⟨rfl, rfl, rfl⟩
  | some atts =>
    simp only [create_message] at hm
    by_cases he : atts.isEmpty
    · rw [if_pos he] at hm
      injection hm with h
      subst h
      exact ⟨rfl, rfl, rfl⟩
    · rw [if_neg he] at hm
      cases hap : attachParts imgOk atts with
      | ok ps =>
        rw [hap] at hm
        injection hm with h
        subst h
        exact ⟨rfl, rfl, rfl⟩
      | error e =>
        rw [hap] at hm
        cases hm

/-- Witness for `create_message_deterministic` at concrete inputs. -/
theorem create_message_deterministic_witness :
    (⟨"s", "r", "j", [MsgPart.html "c"]⟩ : Msg).sender = "s" :=
  ((create_message_deterministic (fun _ => true) "s" "r" "j" "c" none).2
    ⟨"s", "r", "j", [MsgPart.html "c"]⟩ rfl).1

/-- C10: building with an empty attachment list is identical to building
with no attachment argument at all (Python's `if attachments:` is falsy for
both `None` and `[]`), and the resulting message holds exactly one part,
the HTML body, with no attachment parts. -/
theorem create_message_empty_attachments (imgOk : List Nat → Bool)
    (sender recipient subject content : String) :
    create_message imgOk sender recipient subject content (some []) =
      create_message imgOk sender recipient subject content none
    ∧ create_message imgOk sender recipient subject content none =
      .ok ⟨sender, recipient, subject, [MsgPart.html content]⟩ :=
  ⟨rfl, rfl⟩
